import Mathlib

/-!
Verification of the RPC-bridge core of the `webview2` package
(`webview.go`, `common.go`): request decoding, reflective invocation
(`callbinding`), response encoding and dispatch (`msgcb`), the
dispatch-queue drain performed by the `WMApp` branch of `Run`, binding
registration (`Bind`), and the size-hint state updated by `SetSize`.

Modelling conventions (shallow embedding):
* Go `interface{}` values crossing the bridge are modelled by the
  inductive `GoValue`; a Go interface value that is `nil` is modelled
  as `Option.none` where the code compares against `nil`.
* `reflect` information about a bound function (parameter count,
  variadicity, declared return count, per-position JSON decoders and
  the call itself) is captured in the descriptor `BoundFunc`, exactly
  the data `callbinding` reads off `reflect.ValueOf(f)`.
* `encoding/json` is external to the repository: `json.Unmarshal` of a
  parameter into a declared type is the binding's decoder field;
  `json.Unmarshal` of the envelope in `msgcb` is an explicit function
  argument `unmarshal`; `json.Marshal` of the result is `marshalRes`
  over `GoValue` (with `vfunc` standing for the unmarshalable values
  such as functions and channels).
-/

/-- A still-encoded JSON parameter (`json.RawMessage`). -/
abbrev RawMessage := String

/-- A Go `interface{}` value as it appears on the bridge.  `verr` is a
non-nil value of a type implementing `error`, carrying its message;
`vfunc` is a value `encoding/json` cannot marshal. -/
inductive GoValue where
  | vnull
  | vbool (b : Bool)
  | vint (n : Int)
  | vstr (s : String)
  | verr (msg : String)
  | vfunc
deriving DecidableEq, Repr

/-- One result slot of a reflective `Call`, as `callbinding` inspects it:
`err e` is a slot whose declared type implements `error` (`e = none`
models a nil interface value, `e = some m` a non-nil error with message
`m`); `value v` is a slot of any other declared type holding `v`. -/
inductive RetSlot where
  | value (v : GoValue)
  | err (e : Option String)
deriving DecidableEq, Repr

/-- `res[i].Interface()` of a result slot: a nil error interface gives the
nil interface (`none`); a non-nil error gives that error value. -/
def RetSlot.iface : RetSlot → Option GoValue
  | .value v => some v
  | .err none => none
  | .err (some m) => some (.verr m)

/-- The reflective descriptor of a bound callable: everything
`callbinding` reads from `reflect.ValueOf(f)` and its `Type()`.
`decodeIn i` models `json.Unmarshal` into a fresh value of the declared
parameter type `In(i)`; `decodeElem` models it for the variadic element
type `In(numIn-1).Elem()`; `call` is the function itself, returning its
result slots. -/
structure BoundFunc where
  numIn : Nat
  isVariadic : Bool
  numOut : Nat
  decodeIn : Nat → RawMessage → Except String GoValue
  decodeElem : RawMessage → Except String GoValue
  call : List GoValue → List RetSlot

/-- A decoded RPC request envelope (`rpcMessage`). -/
structure rpcMessage where
  ID : Int
  Method : String
  Params : List RawMessage

/-- The binding table `map[string]interface{}` restricted to the
operations the code performs: insert replaces, lookup finds the most
recent entry for a name. -/
def lookupBinding (name : String) : List (String × BoundFunc) → Option BoundFunc
  | [] => none
  | (n, f) :: rest => if n = name then some f else lookupBinding name rest

/-- The arity test of `callbinding`:
`(isVariadic && len(d.Params) < numIn-1) || (!isVariadic && len(d.Params) != numIn)`. -/
def arityMismatch (f : BoundFunc) (params : List RawMessage) : Bool :=
  (f.isVariadic && params.length < f.numIn - 1) ||
  (!f.isVariadic && params.length ≠ f.numIn)

/-- The parameter-decoding loop of `callbinding`: parameter `i` is
unmarshaled into the declared type `In(i)`, or into the variadic element
type when `isVariadic && i >= numIn-1`; the first failure aborts with
that decode error. -/
def decodeParams (f : BoundFunc) : Nat → List RawMessage → Except String (List GoValue)
  | _, [] => .ok []
  | i, p :: rest =>
    match (if f.isVariadic && f.numIn - 1 ≤ i then f.decodeElem p else f.decodeIn i p) with
    | .error e => .error e
    | .ok v =>
      match decodeParams f (i + 1) rest with
      | .error e => .error e
      | .ok vs => .ok (v :: vs)

/-- The `switch len(res)` at the end of `callbinding`, normalizing the
result slots of the reflective call into the `(interface{}, error)`
pair that `callbinding` returns. -/
def normalizeReturn : List RetSlot → Option GoValue × Option String
  | [] => (none, none)
  | [r] =>
    match r with
    | .err (some m) => (none, some m)
    | .err none => (none, none)
    | .value v => (some v, none)
  | [r1, r2] =>
    match r2 with
    | .value _ => (none, some "second return value must be an error")
    | .err none => (r1.iface, none)
    | .err (some m) => (r1.iface, some m)
  | _ => (none, some "unexpected number of return values")

/-- The body of `callbinding` after the successful table lookup: arity
check, parameter decode, reflective call, return normalization. -/
def callBound (f : BoundFunc) (params : List RawMessage) :
    Option GoValue × Option String :=
  if arityMismatch f params then
    (none, some "function arguments mismatch")
  else
    match decodeParams f 0 params with
    | .error e => (none, some e)
    | .ok args => normalizeReturn (f.call args)

/-- `callbinding`: look up the method in the binding table; an unbound
method returns `(nil, nil)`; otherwise run the bound function on the
decoded parameters. -/
def callbinding (bindings : List (String × BoundFunc)) (d : rpcMessage) :
    Option GoValue × Option String :=
  match lookupBinding d.Method bindings with
  | none => (none, none)
  | some f => callBound f d.Params

/-- Low hex digit of a byte. -/
def hexDigit (n : Nat) : Char :=
  if n < 10 then Char.ofNat (48 + n) else Char.ofNat (87 + n)

/-- `encoding/json` string escaping of one character: quote, backslash
and the common control characters get short escapes, other control
characters a `\u00XX` escape, and `<`, `>`, `&`, U+2028, U+2029 are
HTML-escaped as `json.Marshal` does by default. -/
def escapeChar (c : Char) : String :=
  if c = Char.ofNat 34 then "\\\""
  else if c = Char.ofNat 92 then "\\\\"
  else if c = Char.ofNat 10 then "\\n"
  else if c = Char.ofNat 13 then "\\r"
  else if c = Char.ofNat 9 then "\\t"
  else if c.toNat < 32 then
    String.mk [Char.ofNat 92, Char.ofNat 117, Char.ofNat 48, Char.ofNat 48,
      hexDigit (c.toNat / 16), hexDigit (c.toNat % 16)]
  else if c = Char.ofNat 60 then "\\u003c"
  else if c = Char.ofNat 62 then "\\u003e"
  else if c = Char.ofNat 38 then "\\u0026"
  else if c.toNat = 8232 then "\\u2028"
  else if c.toNat = 8233 then "\\u2029"
  else String.singleton c

/-- `jsString` of the source applied to a string value: `json.Marshal`
of a Go string (which never fails), i.e. a quoted escaped string. -/
def jsString (s : String) : String :=
  "\"" ++ String.join (s.data.map escapeChar) ++ "\""

/-- `json.Marshal` on the `GoValue`s of the model.  A non-nil error
value marshals as the empty object (its fields are unexported); `vfunc`
is unmarshalable and fails as `encoding/json` does. -/
def marshalValue : GoValue → Except String String
  | .vnull => .ok "null"
  | .vbool true => .ok "true"
  | .vbool false => .ok "false"
  | .vint n => .ok (toString n)
  | .vstr s => .ok (jsString s)
  | .verr _ => .ok "\x7b\x7d"
  | .vfunc => .error "json: unsupported type: func()"

/-- `json.Marshal(res)` for the `interface{}` result of `callbinding`:
a nil interface marshals to `null`. -/
def marshalRes : Option GoValue → Except String String
  | none => .ok "null"
  | some v => marshalValue v

/-- The resolve statement built in `msgcb`: `b` is the raw marshaled
JSON of the result, spliced in unquoted. -/
def resolveSnippet (id b : String) : String :=
  "window._rpc[" ++ id ++ "].resolve(" ++ b ++ "); window._rpc[" ++ id ++ "] = undefined"

/-- The reject statement built in `msgcb`: the error message is spliced
in as a JSON string via `jsString`. -/
def rejectSnippet (id m : String) : String :=
  "window._rpc[" ++ id ++ "].reject(" ++ jsString m ++ "); window._rpc[" ++ id ++ "] = undefined"

/-- The three-way branch of `msgcb` on the `(res, err)` pair returned by
`callbinding`: a non-nil error rejects with its message; otherwise the
result is marshaled, a marshal failure rejects with the marshal error's
message, and success resolves with the marshaled JSON. -/
def responseSnippet (id : String) : Option GoValue × Option String → String
  | (_, some e) => rejectSnippet id e
  | (res, none) =>
    match marshalRes res with
    | .error e => rejectSnippet id e
    | .ok b => resolveSnippet id b

/-- The `WebView` state touched by the RPC path: the binding table and
the dispatch queue.  Each queued entry is the script that the queued
closure passes to `w.Eval` when the event loop later runs it. -/
structure WebView where
  bindings : List (String × BoundFunc)
  dispatchq : List String

/-- `Dispatch` as used from `msgcb`: append the closure to `dispatchq`
under the lock (the `PostThreadMessageW` wake that follows is an
external event-loop effect). -/
def Dispatch (w : WebView) (script : String) : WebView :=
  ⟨w.bindings, w.dispatchq ++ [script]⟩

/-- `msgcb`: unmarshal the envelope (`unmarshal` stands for
`json.Unmarshal` of `encoding/json` at type `rpcMessage`); on failure
log `invalid RPC message` and return; otherwise call the binding and
dispatch the response snippet for `strconv.Itoa(d.ID)`.  Returns the
new state and the log lines written. -/
def msgcb (unmarshal : String → Except String rpcMessage) (w : WebView)
    (msg : String) : WebView × List String :=
  match unmarshal msg with
  | .error e => (w, ["invalid RPC message: " ++ e])
  | .ok d =>
    let id := toString d.ID
    (Dispatch w (responseSnippet id (callbinding w.bindings d)), [])

/-- The argument of `Bind`: either a function value (with its
reflective descriptor) or a value of any other kind. -/
inductive BindArg where
  | func (f : BoundFunc)
  | notFunc (v : GoValue)

/-- The init script `Bind` injects for a name, with `jsString(name)`
spliced in. -/
def bindScript (name : String) : String :=
  "(function() \x7b var name = " ++ jsString name ++ ";" ++
  "\n\t\tvar RPC = window._rpc = (window._rpc || \x7bnextSeq: 1\x7d);" ++
  "\n\t\twindow[name] = function() \x7b" ++
  "\n\t\t  var seq = RPC.nextSeq++;" ++
  "\n\t\t  var promise = new Promise(function(resolve, reject) \x7b" ++
  "\n\t\t\tRPC[seq] = \x7b" ++
  "\n\t\t\t  resolve: resolve," ++
  "\n\t\t\t  reject: reject," ++
  "\n\t\t\t\x7d;" ++
  "\n\t\t  \x7d);" ++
  "\n\t\t  window.external.invoke(JSON.stringify(\x7b" ++
  "\n\t\t\tid: seq," ++
  "\n\t\t\tmethod: name," ++
  "\n\t\t\tparams: Array.prototype.slice.call(arguments)," ++
  "\n\t\t  \x7d));" ++
  "\n\t\t  return promise;" ++
  "\n\t\t\x7d" ++
  "\n\t\x7d)()"

/-- `Bind`: reject a non-function (`reflect.Kind` check) and a function
with more than two declared return values, before touching any state;
otherwise register the binding (replacing a previous one for the name)
and inject the init script.  On success the new state and the injected
script are returned. -/
def WebView.Bind (w : WebView) (name : String) (f : BindArg) :
    Except String (WebView × String) :=
  match f with
  | .notFunc _ => .error "only functions can be bound"
  | .func fn =>
    if 2 < fn.numOut then
      .error "function may only return a value or a value+error"
    else
      .ok (⟨(name, fn) :: w.bindings, w.dispatchq⟩, bindScript name)

namespace EventLoop

/-- A deferred task for the drain model of `Run`: its identity, and the
tasks it itself passes to `Dispatch` while it runs. -/
inductive Task where
  | mk : Nat → List Task → Task

/-- Identity of a task. -/
def Task.tid : Task → Nat
  | .mk n _ => n

/-- The tasks a task enqueues while running. -/
def Task.spawns : Task → List Task
  | .mk _ l => l

/-- The loop-side state for the drain model: the dispatch queue and the
log of tasks already run, in execution order. -/
structure LoopState where
  dispatchq : List Task
  ran : List Nat

/-- `Dispatch` for the drain model: append the task to the queue under
the lock. -/
def enqueue (s : LoopState) (t : Task) : LoopState :=
  ⟨s.dispatchq ++ [t], s.ran⟩

/-- Run one task on the loop thread: it executes (recorded in `ran`)
and performs its own `Dispatch` calls in order. -/
def runTask (s : LoopState) (t : Task) : LoopState :=
  t.spawns.foldl enqueue ⟨s.dispatchq, s.ran ++ [t.tid]⟩

/-- The `WMApp` branch of `Run`: copy the queue (`q := append([]func(){},
w.dispatchq...)`), reset `w.dispatchq` to empty, release the lock, then
run each copied task in order. -/
def drainPass (s : LoopState) : LoopState :=
  s.dispatchq.foldl runTask ⟨[], s.ran⟩

end EventLoop

/-- `Hint` of `common.go`, in declaration order. -/
inductive Hint where
  | HintNone
  | HintFixed
  | HintMin
  | HintMax
  | HintCenter
deriving DecidableEq, Repr

/-- Go `int32(n)` conversion. -/
def toInt32 (n : Int) : Int := (n + 2 ^ 31) % 2 ^ 32 - 2 ^ 31

/-- The `WebView` fields `SetSize` can assign: the `w32.Point` max and
min size constraints, as pairs of `int32` coordinates `(X, Y)`. -/
structure SizeState where
  maxsz : Int × Int
  minsz : Int × Int
deriving DecidableEq, Repr

/-- `SetSize` restricted to the `WebView` fields it assigns: `HintMax`
sets `maxsz`, `HintMin` sets `minsz`; the `HintCenter` branch and the
default branch only call external window functions (`MoveWindow`,
`SetWindowPos`, `Browser.Resize`) and assign no field, as does the
window-style update at the top. -/
def SetSize (st : SizeState) (width height : Int) (hints : Hint) : SizeState :=
  if hints = Hint.HintMax then
    ⟨(toInt32 width, toInt32 height), st.minsz⟩
  else if hints = Hint.HintMin then
    ⟨st.maxsz, (toInt32 width, toInt32 height)⟩
  else
    st

/-! Concrete handlers, mirroring the end-to-end scenarios of the
repository's documentation: an `add(a, b int) int`, a variadic
`sum(nums ...int) int`, a `fail() (int, error)`, a handler returning an
unmarshalable value, and a handler whose second return value is not an
error. -/

/-- Decimal digit value of a character, if it is one. -/
def digitVal (c : Char) : Option Nat :=
  if 48 ≤ c.toNat ∧ c.toNat ≤ 57 then some (c.toNat - 48) else none

/-- Accumulate the value of a digit run. -/
def digitsValAux : Nat → List Char → Option Nat
  | acc, [] => some acc
  | acc, c :: rest =>
    match digitVal c with
    | some d => digitsValAux (10 * acc + d) rest
    | none => none

/-- Value of a non-empty digit run. -/
def parseNatChars : List Char → Option Nat
  | [] => none
  | l => digitsValAux 0 l

/-- Value of a decimal integer literal, with optional leading minus. -/
def parseIntChars : List Char → Option Int
  | [] => none
  | c :: rest =>
    if c = Char.ofNat 45 then (parseNatChars rest).map (fun n => -(n : Int))
    else (parseNatChars (c :: rest)).map (fun n => (n : Int))

/-- A model `json.Unmarshal` into a Go `int`: accepts an integer
literal, fails otherwise. -/
def decodeIntRaw (r : RawMessage) : Except String GoValue :=
  match parseIntChars r.data with
  | some n => .ok (.vint n)
  | none => .error "json: cannot unmarshal param into Go value of type int"

/-- Sum of the integer arguments of a handler. -/
def sumArgs : List GoValue → Int
  | [] => 0
  | .vint n :: rest => n + sumArgs rest
  | _ :: rest => sumArgs rest

/-- `func add(a, b int) int`. -/
def addFunc : BoundFunc :=
  ⟨2, false, 1, fun _ => decodeIntRaw, decodeIntRaw,
    fun args => [.value (.vint (sumArgs args))]⟩

/-- `func sum(nums ...int) int`. -/
def sumVariadic : BoundFunc :=
  ⟨1, true, 1, fun _ => decodeIntRaw, decodeIntRaw,
    fun args => [.value (.vint (sumArgs args))]⟩

/-- `func fail() (int, error)` returning `(0, errors.New("boom"))`. -/
def failFunc : BoundFunc :=
  ⟨0, false, 2, fun _ => decodeIntRaw, decodeIntRaw,
    fun _ => [.value (.vint 0), .err (some "boom")]⟩

/-- `func badresult() func()`: succeeds with a value `json.Marshal`
cannot encode. -/
def funcResultFunc : BoundFunc :=
  ⟨0, false, 1, fun _ => decodeIntRaw, decodeIntRaw,
    fun _ => [.value .vfunc]⟩

/-- `func twovalue() (int, int)`: two return values, the second of
which does not implement `error`. -/
def twoValueFunc : BoundFunc :=
  ⟨0, false, 2, fun _ => decodeIntRaw, decodeIntRaw,
    fun _ => [.value (.vint 1), .value (.vint 2)]⟩

/-! Helper lemmas. -/

namespace EventLoop

theorem foldl_enqueue_eq (l : List Task) : ∀ s : LoopState,
    l.foldl enqueue s = ⟨s.dispatchq ++ l, s.ran⟩ := by
  induction l with
  | nil => intro s; simp
  | cons t rest ih =>
    intro s
    rw [List.foldl_cons, ih]
    simp [enqueue]

theorem runTask_eq (s : LoopState) (t : Task) :
    runTask s t = ⟨s.dispatchq ++ t.spawns, s.ran ++ [t.tid]⟩ := by
  rw [runTask, foldl_enqueue_eq]

theorem foldl_runTask_eq (q : List Task) : ∀ s : LoopState,
    q.foldl runTask s =
      ⟨s.dispatchq ++ (q.map Task.spawns).flatten, s.ran ++ q.map Task.tid⟩ := by
  induction q with
  | nil => intro s; simp
  | cons t rest ih =>
    intro s
    rw [List.foldl_cons, runTask_eq, ih]
    simp

end EventLoop

theorem arityMismatch_iff (f : BoundFunc) (params : List RawMessage) :
    arityMismatch f params = true ↔
      (f.isVariadic = true ∧ params.length < f.numIn - 1) ∨
      (f.isVariadic = false ∧ params.length ≠ f.numIn) := by
  simp [arityMismatch, Bool.or_eq_true, Bool.and_eq_true, decide_eq_true_eq,
    Bool.not_eq_true']

theorem decodeParams_error_src (f : BoundFunc) : ∀ (ps : List RawMessage) (i : Nat)
    (e : String), decodeParams f i ps = .error e →
      (∃ j p, f.decodeIn j p = .error e) ∨ (∃ p, f.decodeElem p = .error e) := by
  intro ps
  induction ps with
  | nil => intro i e h; simp [decodeParams] at h
  | cons p rest ih =>
    intro i e h
    rw [decodeParams] at h
    rcases hd : (if f.isVariadic && f.numIn - 1 ≤ i then f.decodeElem p
        else f.decodeIn i p) with e1 | v
    · rw [hd] at h
      simp only [] at h
      cases h
      by_cases hv : (f.isVariadic && f.numIn - 1 ≤ i) = true
      · rw [if_pos hv] at hd
        exact .inr ⟨p, hd⟩
      · rw [if_neg hv] at hd
        exact .inl ⟨i, p, hd⟩
    · rw [hd] at h
      rcases hr : decodeParams f (i + 1) rest with e2 | vs
      · rw [hr] at h
        cases h
        exact ih (i + 1) e hr
      · rw [hr] at h
        cases h

/-! Claim theorems. -/

/-- C5: One drain pass of the event loop (the `WMApp` branch of `Run`)
swaps the dispatch queue for an empty list and then runs exactly the
tasks that were queued before the swap, each exactly once, in their
original enqueue (FIFO) order; any task enqueued by `Dispatch` during
the drain is not executed in that same drain but remains queued, in
order, for a subsequent wake. -/
theorem drainPass_fifo_defers_spawns (s : EventLoop.LoopState) :
    (EventLoop.drainPass s).ran = s.ran ++ s.dispatchq.map EventLoop.Task.tid ∧
    (EventLoop.drainPass s).dispatchq =
      (s.dispatchq.map EventLoop.Task.spawns).flatten := by
  rw [EventLoop.drainPass, EventLoop.foldl_runTask_eq]
  simp

/-- C10: For every size state and every width and height, `SetSize`
with `HintMax` updates only `maxsz`, leaving `minsz` unchanged;
`HintMin` updates only `minsz`, leaving `maxsz` unchanged; and
`HintNone`, `HintFixed` and `HintCenter` leave both unchanged. -/
theorem SetSize_hint_field_effects (st : SizeState) (width height : Int) :
    SetSize st width height Hint.HintMax = ⟨(toInt32 width, toInt32 height), st.minsz⟩ ∧
    SetSize st width height Hint.HintMin = ⟨st.maxsz, (toInt32 width, toInt32 height)⟩ ∧
    SetSize st width height Hint.HintNone = st ∧
    SetSize st width height Hint.HintFixed = st ∧
    SetSize st width height Hint.HintCenter = st := by
  refine ⟨rfl, rfl, rfl, rfl, rfl⟩

/-- C2: `callbinding`'s normalization of a bound handler's return
shape, given that lookup, arity check and parameter decoding succeed:
no results is `Void` (`(nil, nil)`); one result of an error type is
`Err` of its message when non-nil and `Void` when nil, while one result
of a non-error type is `Ok` of the value; two results with nil error
give `Ok` of the first value, and with non-nil error give `Err` of its
message, the delivered response snippet discarding the success value;
three or more results give `Err("unexpected number of return values")`. -/
theorem callBound_return_normalization (f : BoundFunc) (params : List RawMessage)
    (args : List GoValue)
    (ha : arityMismatch f params = false)
    (hd : decodeParams f 0 params = .ok args) :
    (f.call args = [] → callBound f params = (none, none)) ∧
    (∀ m, f.call args = [.err (some m)] → callBound f params = (none, some m)) ∧
    (f.call args = [.err none] → callBound f params = (none, none)) ∧
    (∀ v, f.call args = [.value v] → callBound f params = (some v, none)) ∧
    (∀ r1, f.call args = [r1, .err none] → callBound f params = (r1.iface, none)) ∧
    (∀ r1 m, f.call args = [r1, .err (some m)] →
      callBound f params = (r1.iface, some m) ∧
      ∀ id, responseSnippet id (callBound f params) = rejectSnippet id m) ∧
    (∀ r1 r2 r3 rest, f.call args = r1 :: r2 :: r3 :: rest →
      callBound f params = (none, some "unexpected number of return values")) := by
  have hc : callBound f params = normalizeReturn (f.call args) := by
    simp only [callBound, ha, Bool.false_eq_true, if_false, hd]
  refine ⟨?_, ?_, ?_, ?_, ?_, ?_, ?_⟩
  · intro h; rw [hc, h]; rfl
  · intro m h; rw [hc, h]; rfl
  · intro h; rw [hc, h]; rfl
  · intro v h; rw [hc, h]; rfl
  · intro r1 h; rw [hc, h]; rfl
  · intro r1 m h
    refine ⟨by rw [hc, h]; rfl, ?_⟩
    intro id
    rw [hc, h]
    rfl
  · intro r1 r2 r3 rest h; rw [hc, h]; rfl

/-- Witness for the return-shape normalization: the `add(2, 3)` and
`fail()` scenarios evaluated concretely. -/
theorem callBound_return_normalization_witness :
    arityMismatch addFunc ["2", "3"] = false ∧
    decodeParams addFunc 0 ["2", "3"] = .ok [.vint 2, .vint 3] ∧
    callBound addFunc ["2", "3"] = (some (.vint 5), none) ∧
    callBound failFunc [] = (some (.vint 0), some "boom") := by
  refine ⟨rfl, rfl, ?_, ?_⟩
  · exact (callBound_return_normalization addFunc ["2", "3"]
      [.vint 2, .vint 3] rfl rfl).2.2.2.1 (.vint 5) rfl
  · exact ((callBound_return_normalization failFunc [] [] rfl rfl).2.2.2.2.2.1
      (.value (.vint 0)) "boom" rfl).1

theorem decodeIntRaw_error_msg (p : RawMessage) (e : String)
    (h : decodeIntRaw p = .error e) :
    e = "json: cannot unmarshal param into Go value of type int" := by
  rw [decodeIntRaw] at h
  rcases hp : parseIntChars p.data with _ | n
  · rw [hp] at h
    cases h
    rfl
  · rw [hp] at h
    cases h

theorem decodeParams_call_irrel (nIn : Nat) (isv : Bool) (nOut : Nat)
    (dIn : Nat → RawMessage → Except String GoValue)
    (dEl : RawMessage → Except String GoValue)
    (g c : List GoValue → List RetSlot) :
    ∀ (ps : List RawMessage) (i : Nat),
      decodeParams ⟨nIn, isv, nOut, dIn, dEl, g⟩ i ps =
        decodeParams ⟨nIn, isv, nOut, dIn, dEl, c⟩ i ps := by
  intro ps
  induction ps with
  | nil => intro i; rfl
  | cons p rest ih =>
    intro i
    simp only [decodeParams]
    rw [ih (i + 1)]

/-- C3: given the method is bound to a handler whose parameter decoders
and call results never themselves yield the message `function arguments
mismatch`, `callbinding` returns `Err("function arguments mismatch")`
exactly when the arity check fails: for a non-variadic handler when the
number of params differs from the declared parameter count, for a
variadic handler when it is strictly below the declared count minus
one (so a variadic handler whose only parameter is the variadic slice
accepts zero params). -/
theorem callbinding_arity_mismatch_iff (w : List (String × BoundFunc))
    (d : rpcMessage) (f : BoundFunc)
    (hf : lookupBinding d.Method w = some f)
    (hdec1 : ∀ i p e, f.decodeIn i p = .error e → e ≠ "function arguments mismatch")
    (hdec2 : ∀ p e, f.decodeElem p = .error e → e ≠ "function arguments mismatch")
    (hcall : ∀ args, normalizeReturn (f.call args) ≠
      (none, some "function arguments mismatch")) :
    callbinding w d = (none, some "function arguments mismatch") ↔
      (f.isVariadic = true ∧ d.Params.length < f.numIn - 1) ∨
      (f.isVariadic = false ∧ d.Params.length ≠ f.numIn) := by
  have hcb : callbinding w d = callBound f d.Params := by
    simp only [callbinding, hf]
  rw [hcb, ← arityMismatch_iff]
  constructor
  · intro h
    cases hAM : arityMismatch f d.Params
    · exfalso
      rw [callBound, hAM] at h
      simp only [Bool.false_eq_true, if_false] at h
      rcases hdp : decodeParams f 0 d.Params with e | args
      · rw [hdp] at h
        have he : e = "function arguments mismatch" := by
          have h2 := congrArg Prod.snd h
          simpa using h2
        rcases decodeParams_error_src f d.Params 0 e hdp with ⟨j, p, hj⟩ | ⟨p, hp⟩
        · exact absurd he (hdec1 j p e hj)
        · exact absurd he (hdec2 p e hp)
      · rw [hdp] at h
        exact hcall args h
    · rfl
  · intro h
    simp only [callBound, h, if_true]

/-- Witness for the arity check: `add(a, b int)` called with one
parameter is an arity mismatch, and the variadic `sum(nums ...int)`
called with zero parameters is not. -/
theorem callbinding_arity_mismatch_iff_witness :
    callbinding [("add", addFunc)] ⟨1, "add", ["1"]⟩ =
      (none, some "function arguments mismatch") ∧
    callbinding [("sum", sumVariadic)] ⟨7, "sum", []⟩ ≠
      (none, some "function arguments mismatch") := by
  have hdecIn : ∀ (p : RawMessage) (e : String),
      decodeIntRaw p = .error e → e ≠ "function arguments mismatch" := by
    intro p e h
    rw [decodeIntRaw_error_msg p e h]
    decide
  constructor
  · exact (callbinding_arity_mismatch_iff [("add", addFunc)] ⟨1, "add", ["1"]⟩
      addFunc rfl (fun _ => hdecIn) hdecIn
      (fun args => by simp [addFunc, normalizeReturn])).mpr
      (Or.inr ⟨rfl, by decide⟩)
  · intro hc
    rcases (callbinding_arity_mismatch_iff [("sum", sumVariadic)] ⟨7, "sum", []⟩
        sumVariadic rfl (fun _ => hdecIn) hdecIn
        (fun args => by simp [sumVariadic, normalizeReturn])).mp hc with
      ⟨_, h2⟩ | ⟨h1, _⟩
    · exact absurd h2 (by decide)
    · exact absurd h1 (by decide)

/-- C4: for a bound handler and a request that passes the arity check,
a failing parameter decode makes `callbinding` return `Err` carrying
the decode error's message, and the handler is never invoked: the
result is the same for every possible handler body. -/
theorem callbinding_decode_failure_aborts (w : List (String × BoundFunc))
    (d : rpcMessage) (f : BoundFunc) (e : String)
    (hf : lookupBinding d.Method w = some f)
    (ha : arityMismatch f d.Params = false)
    (hd : decodeParams f 0 d.Params = .error e) :
    callbinding w d = (none, some e) ∧
    ∀ g : List GoValue → List RetSlot,
      callBound ⟨f.numIn, f.isVariadic, f.numOut, f.decodeIn, f.decodeElem, g⟩
        d.Params = (none, some e) := by
  obtain ⟨nIn, isv, nOut, dIn, dEl, c⟩ := f
  constructor
  · simp only [callbinding, hf, callBound, ha, Bool.false_eq_true, if_false, hd]
  · intro g
    have ha2 : arityMismatch ⟨nIn, isv, nOut, dIn, dEl, g⟩ d.Params = false := ha
    have hd2 : decodeParams ⟨nIn, isv, nOut, dIn, dEl, g⟩ 0 d.Params = .error e :=
      (decodeParams_call_irrel nIn isv nOut dIn dEl g c d.Params 0).trans hd
    simp only [callBound, ha2, Bool.false_eq_true, if_false, hd2]

/-- Witness for the decode-failure abort: `add(2, x)` with an
undecodable second parameter, for the real `add` body and for a body
with a visibly different result. -/
theorem callbinding_decode_failure_aborts_witness :
    callbinding [("add", addFunc)] ⟨1, "add", ["2", "x"]⟩ =
      (none, some "json: cannot unmarshal param into Go value of type int") ∧
    callBound ⟨2, false, 1, fun _ => decodeIntRaw, decodeIntRaw,
        fun _ => [.err (some "handler ran")]⟩ ["2", "x"] =
      (none, some "json: cannot unmarshal param into Go value of type int") := by
  have h := callbinding_decode_failure_aborts [("add", addFunc)]
    ⟨1, "add", ["2", "x"]⟩ addFunc
    "json: cannot unmarshal param into Go value of type int" rfl rfl rfl
  exact ⟨h.1, h.2 (fun _ => [.err (some "handler ran")])⟩

/-- C1 counterexample: with an empty binding table, the request
`id 1, method "foo"` has the Void outcome `(nil, nil)`, and yet `msgcb`
does dispatch a response snippet for it — the resolve-with-null
statement — so the dispatched-snippet list is not empty. -/
theorem unknown_method_resolves_null_cex :
    callbinding ([] : List (String × BoundFunc)) ⟨1, "foo", []⟩ = (none, none) ∧
    (msgcb (fun _ => .ok ⟨1, "foo", []⟩) ⟨[], []⟩ "m").1.dispatchq =
      ["window._rpc[1].resolve(null); window._rpc[1] = undefined"] ∧
    (msgcb (fun _ => .ok ⟨1, "foo", []⟩) ⟨[], []⟩ "m").1.dispatchq ≠ [] := by
  refine ⟨rfl, rfl, ?_⟩
  decide

/-- C1 (amended): for every decoded request whose method is not in the
binding table, `callbinding` returns the Void outcome `(nil, nil)`, and
`msgcb` then dispatches exactly one response snippet for the request —
the resolve-with-null statement, as for `Ok(null)` — with no reject, no
log and no change to the binding table. -/
theorem unknown_method_void_resolves_null
    (um : String → Except String rpcMessage) (w : WebView) (msg : String)
    (d : rpcMessage)
    (hum : um msg = .ok d)
    (hnb : lookupBinding d.Method w.bindings = none) :
    callbinding w.bindings d = (none, none) ∧
    (msgcb um w msg).1.dispatchq =
      w.dispatchq ++ [resolveSnippet (toString d.ID) "null"] ∧
    (msgcb um w msg).1.bindings = w.bindings ∧
    (msgcb um w msg).2 = [] := by
  have hcb : callbinding w.bindings d = (none, none) := by
    simp only [callbinding, hnb]
  refine ⟨hcb, ?_, ?_, ?_⟩
  · simp only [msgcb, hum, hcb, Dispatch]
    rfl
  · simp only [msgcb, hum, hcb, Dispatch]
  · simp only [msgcb, hum, hcb, Dispatch]

/-- Witness for the amended unknown-method behavior, with one binding
present and a different method requested. -/
theorem unknown_method_void_resolves_null_witness :
    (msgcb (fun _ => .ok ⟨2, "nope", []⟩) ⟨[("add", addFunc)], []⟩ "m").1.dispatchq =
      ["window._rpc[2].resolve(null); window._rpc[2] = undefined"] := by
  have h := unknown_method_void_resolves_null (fun _ => .ok ⟨2, "nope", []⟩)
    ⟨[("add", addFunc)], []⟩ "m" ⟨2, "nope", []⟩ rfl rfl
  exact h.2.1

/-- C6: for a decoded request with id N, an `Ok(v)` outcome whose JSON
encoding succeeds is delivered as the script statement resolving
`window._rpc[N]` with the encoding and then clearing the slot with
`undefined`; an `Err(m)` outcome as the statement rejecting with the
JSON string encoding of `m` and clearing the slot; and the Void outcome
yields the same snippet as `Ok(null)`: resolve with `null`. -/
theorem msgcb_response_snippets
    (um : String → Except String rpcMessage) (w : WebView) (msg : String)
    (d : rpcMessage)
    (hum : um msg = .ok d) :
    (∀ v b, callbinding w.bindings d = (some v, none) → marshalValue v = .ok b →
      (msgcb um w msg).1.dispatchq =
        w.dispatchq ++ [resolveSnippet (toString d.ID) b]) ∧
    (∀ res m, callbinding w.bindings d = (res, some m) →
      (msgcb um w msg).1.dispatchq =
        w.dispatchq ++ [rejectSnippet (toString d.ID) m]) ∧
    (callbinding w.bindings d = (none, none) →
      (msgcb um w msg).1.dispatchq =
        w.dispatchq ++ [resolveSnippet (toString d.ID) "null"]) ∧
    (∀ id, responseSnippet id (none, none) =
      responseSnippet id (some .vnull, none)) := by
  refine ⟨?_, ?_, ?_, fun id => rfl⟩
  · intro v b hcb hb
    simp only [msgcb, hum, hcb, Dispatch, responseSnippet, marshalRes, hb]
  · intro res m hcb
    simp only [msgcb, hum, hcb, Dispatch, responseSnippet]
  · intro hcb
    simp only [msgcb, hum, hcb, Dispatch]
    rfl

/-- Witness for the response encoding: the `add(2, 3)` call resolves
promise 1 with `5`, the `fail()` call rejects promise 3 with the JSON
string `"boom"`. -/
theorem msgcb_response_snippets_witness :
    (msgcb (fun _ => .ok ⟨1, "add", ["2", "3"]⟩)
        ⟨[("add", addFunc)], []⟩ "m").1.dispatchq =
      ["window._rpc[1].resolve(5); window._rpc[1] = undefined"] ∧
    (msgcb (fun _ => .ok ⟨3, "fail", []⟩)
        ⟨[("fail", failFunc)], []⟩ "m").1.dispatchq =
      ["window._rpc[3].reject(\"boom\"); window._rpc[3] = undefined"] := by
  constructor
  · exact (msgcb_response_snippets (fun _ => .ok ⟨1, "add", ["2", "3"]⟩)
      ⟨[("add", addFunc)], []⟩ "m" ⟨1, "add", ["2", "3"]⟩ rfl).1
      (.vint 5) "5" rfl rfl
  · exact (msgcb_response_snippets (fun _ => .ok ⟨3, "fail", []⟩)
      ⟨[("fail", failFunc)], []⟩ "m" ⟨3, "fail", []⟩ rfl).2.1
      (some (.vint 0)) "boom" rfl

/-- C7: a request whose invocation succeeds with a value that
`json.Marshal` cannot encode does not fail natively: `msgcb` dispatches
a rejection snippet for that request id carrying the encoding error's
message, instead of a resolution, and logs nothing. -/
theorem msgcb_marshal_failure_rejects
    (um : String → Except String rpcMessage) (w : WebView) (msg : String)
    (d : rpcMessage) (res : Option GoValue) (e : String)
    (hum : um msg = .ok d)
    (hcb : callbinding w.bindings d = (res, none))
    (hm : marshalRes res = .error e) :
    (msgcb um w msg).1.dispatchq =
      w.dispatchq ++ [rejectSnippet (toString d.ID) e] ∧
    (msgcb um w msg).2 = [] := by
  constructor <;> · simp only [msgcb, hum, hcb, Dispatch, responseSnippet, hm]

/-- Witness for the marshal-failure fallback: a handler returning a
function value yields a rejection carrying the `encoding/json` error
message. -/
theorem msgcb_marshal_failure_rejects_witness :
    (msgcb (fun _ => .ok ⟨4, "badresult", []⟩)
        ⟨[("badresult", funcResultFunc)], []⟩ "m").1.dispatchq =
      ["window._rpc[4].reject(\"json: unsupported type: func()\"); window._rpc[4] = undefined"] := by
  exact (msgcb_marshal_failure_rejects (fun _ => .ok ⟨4, "badresult", []⟩)
    ⟨[("badresult", funcResultFunc)], []⟩ "m" ⟨4, "badresult", []⟩
    (some .vfunc) "json: unsupported type: func()" rfl rfl rfl).1

/-- C8: an incoming message that fails to unmarshal as the request
envelope is logged and dropped: the state (binding table and dispatch
queue) is unchanged, no handler runs and no snippet is dispatched, and
any subsequent message is processed exactly as if the malformed one had
never arrived. -/
theorem msgcb_malformed_envelope_dropped
    (um : String → Except String rpcMessage) (w : WebView) (msg : String)
    (e : String)
    (hum : um msg = .error e) :
    (msgcb um w msg).1 = w ∧
    (msgcb um w msg).2 = ["invalid RPC message: " ++ e] ∧
    ∀ msg2, msgcb um (msgcb um w msg).1 msg2 = msgcb um w msg2 := by
  have h1 : (msgcb um w msg).1 = w := by simp only [msgcb, hum]
  exact ⟨h1, by simp only [msgcb, hum], fun msg2 => by rw [h1]⟩

/-- Witness for the malformed-envelope drop, with a nonempty binding
table. -/
theorem msgcb_malformed_envelope_dropped_witness :
    (msgcb (fun _ => .error "unexpected end of JSON input")
        ⟨[("add", addFunc)], []⟩ "?").1.dispatchq = [] ∧
    (msgcb (fun _ => .error "unexpected end of JSON input")
        ⟨[("add", addFunc)], []⟩ "?").2 =
      ["invalid RPC message: unexpected end of JSON input"] := by
  have h := msgcb_malformed_envelope_dropped
    (fun _ => .error "unexpected end of JSON input")
    ⟨[("add", addFunc)], []⟩ "?" "unexpected end of JSON input" rfl
  exact ⟨by rw [h.1], h.2.1⟩

/-- C9 counterexample: `Bind` accepts a function whose second of two
return values does not implement `error`: instead of returning an
error, it registers the binding and produces the init script; the
configuration error only surfaces when the binding is invoked. -/
theorem bind_two_value_second_accepted_cex :
    WebView.Bind ⟨[], []⟩ "twovalue" (.func twoValueFunc) =
      .ok (⟨[("twovalue", twoValueFunc)], []⟩, bindScript "twovalue") ∧
    callBound twoValueFunc [] =
      (none, some "second return value must be an error") := by
  exact ⟨rfl, rfl⟩

/-- C9 (amended): `Bind` rejects, before any script injection and
without registering, exactly the non-callables and the callables with
more than two declared return values; a callable with two return values
whose second does not implement `error` is accepted and registered, and
that configuration error is reported only at call time, as
`Err("second return value must be an error")`. -/
theorem bind_checks_and_call_time_error (w : WebView) (name : String) :
    (∀ v, w.Bind name (.notFunc v) = .error "only functions can be bound") ∧
    (∀ fn : BoundFunc, 2 < fn.numOut →
      w.Bind name (.func fn) =
        .error "function may only return a value or a value+error") ∧
    (∀ fn : BoundFunc, fn.numOut ≤ 2 →
      w.Bind name (.func fn) =
        .ok (⟨(name, fn) :: w.bindings, w.dispatchq⟩, bindScript name) ∧
      lookupBinding name ((name, fn) :: w.bindings) = some fn) ∧
    (∀ (fn : BoundFunc) (params : List RawMessage) (args : List GoValue)
        (r1 : RetSlot) (v2 : GoValue),
      arityMismatch fn params = false →
      decodeParams fn 0 params = .ok args →
      fn.call args = [r1, .value v2] →
      callBound fn params =
        (none, some "second return value must be an error")) := by
  refine ⟨fun v => rfl, ?_, ?_, ?_⟩
  · intro fn h
    simp only [WebView.Bind]
    rw [if_pos h]
  · intro fn h
    constructor
    · simp only [WebView.Bind]
      rw [if_neg (by omega)]
    · simp [lookupBinding]
  · intro fn params args r1 v2 ha hd hc
    simp only [callBound, ha, Bool.false_eq_true, if_false, hd, hc]
    rfl

/-- Witness for the bind-time checks and the call-time second-slot
check. -/
theorem bind_checks_and_call_time_error_witness :
    WebView.Bind ⟨[], []⟩ "x" (.notFunc (.vint 3)) =
      .error "only functions can be bound" ∧
    callBound twoValueFunc [] =
      (none, some "second return value must be an error") := by
  have h := bind_checks_and_call_time_error ⟨[], []⟩ "x"
  exact ⟨h.1 (.vint 3),
    h.2.2.2 twoValueFunc [] [] (.value (.vint 1)) (.vint 2) rfl rfl rfl⟩
